import Mathlib

/-!
Verification of the staged assembly pipeline orchestrator
(`proksee/pipelines/assemble.py`).

The orchestrator sequences a fixed list of gated stages.  External
collaborators (read filterer, species estimator, expert system, assemblers,
contamination handler, quality measurer, ML and heuristic evaluators, report
writers) are out of scope of the source module and are modelled at their
interface boundary: an `Env` record supplies the result each collaborator
would return, exactly as the orchestrator consumes it (a `proceed` flag and
report for strategies, a `success` flag and report for evaluations, opaque
quality metrics, report strings).

The embedding of `assemble` returns three observations:
  * `events`  : the ordered list of stage executions and filesystem actions,
  * `printed` : the ordered list of lines written to program output,
  * `result`  : the returned value (`none` on an early halt).
-/

/-- A species candidate, as consumed by the orchestrator.  Only the `name`
attribute is inspected (`species.name == "Unknown"`); the textual rendering
`str(species)` is abstracted as the name. -/
structure Species where
  name : String
deriving DecidableEq, Repr

/-- Numeric assembly statistics produced by the external quality measurer;
the orchestrator threads them through without inspecting them. -/
structure AssemblyQuality where
  numContigs : Nat
  n50 : Nat
  totalLength : Nat
deriving DecidableEq, Repr

/-- The interface an assembler object exposes to the orchestrator: a name
(used in the CSV summary), the captured output of `.assemble()`, and the
location of the contigs file it produces. -/
structure Assembler where
  name : String
  assembleOutput : String
  contigsFilename : String
deriving DecidableEq, Repr

/-- An assembly strategy derived by the expert system: a report, a
`proceed` recommendation, and the chosen assembler. -/
structure AssemblyStrategy where
  report : String
  proceed : Bool
  assembler : Assembler
deriving DecidableEq, Repr

/-- Outcome of a quality or contamination check: a report and a `success`
flag. -/
structure Evaluation where
  report : String
  success : Bool
deriving DecidableEq, Repr

/-- The sequencing platform.  The enumeration lives outside the source
module; the orchestrator only distinguishes `UNIDENTIFIABLE` from the rest
and prints `platform.value`. -/
inductive Platform where
  | unidentifiable
  | identified (value : String)
deriving DecidableEq, Repr

/-- The textual `value` of a platform variant, as printed by
`report_platform`.  The concrete string of the `UNIDENTIFIABLE` variant is
defined outside the source module and is abstracted here. -/
def Platform.valueString : Platform → String
  | .unidentifiable => "UNIDENTIFIABLE"
  | .identified v => v

/-- The final pipeline result (`AssemblySummary(species, expert_assembly_quality,
contigs_new_filename)`), constructed only on full completion. -/
structure AssemblySummary where
  species : Species
  quality : AssemblyQuality
  contigsPath : String
deriving DecidableEq, Repr

/-- `report_valid_fastq(valid)`: the lines printed for the FASTQ validation
stage. -/
def report_valid_fastq (valid : Bool) : List String :=
  if !valid then
    ["One or both of the reads are not in FASTQ format."]
  else
    ["The reads appear to be formatted correctly."]

/-- `report_platform(platform)`: the line printed for the platform stage. -/
def report_platform (platform : Platform) : List String :=
  ["Sequencing Platform: " ++ platform.valueString]

/-- `report_species(species_list)`: the lines printed for the species stage.
The list is passed as head and tail (`species_list = top :: rest`); the
source indexes `species_list[0]` and so requires a non-empty list.

Faithful to the variable reuse in the source: the loop
`for species in species_list[1:min(5, len(species_list))]` rebinds the local
`species`, so the final check `species.name == "Unknown"` inspects the last
printed additional candidate whenever `len(species_list) > 1`, and the top
candidate only when the list is a singleton. -/
def report_species (top : Species) (rest : List Species) : List String :=
  let species0 := top
  let shown := rest.take 4
  let additionalLines :=
    if rest.length > 0 then
      ["\nWARNING: Additional high-confidence species were found in the input data:\n"]
        ++ shown.map (fun s => s.name)
    else []
  let speciesFinal := shown.getLast?.getD species0
  let unknownLines :=
    if speciesFinal.name = "Unknown" then
      ["\nWARNING: A species could not be determined with high confidence from the input data."]
    else []
  ["SPECIES: " ++ species0.name] ++ additionalLines ++ unknownLines ++ [""]

/-- `report_strategy(strategy)`: the lines printed for a strategy stage. -/
def report_strategy (strategy : AssemblyStrategy) : List String :=
  [strategy.report]
    ++ (if !strategy.proceed then ["The assembly was unable to proceed.\n"] else [])

/-- `report_contamination(evaluation)`: the lines printed for the
contamination stage. -/
def report_contamination (evaluation : Evaluation) : List String :=
  [evaluation.report]
    ++ (if !evaluation.success then ["The assembly was unable to proceed.\n"] else [])

/-- Results of the external collaborators, supplied at the interface
boundary exactly as the orchestrator consumes them. -/
structure Env where
  valid_fastq : Bool
  identifyNameResult : Platform
  identifiedPlatform : Platform
  speciesTop : Species
  speciesRest : List Species
  fastStrategy : AssemblyStrategy
  contaminationEvaluation : Evaluation
  fastAssemblyQuality : AssemblyQuality
  mlFastReport : String
  expertStrategy : AssemblyStrategy
  expertAssemblyQuality : AssemblyQuality
  mlExpertReport : String
  heuristicReport : String
  comparisonReport : String

/-- `determine_platform(reads, platform_name)`: returns the platform and the
lines it prints.  `env.identifyNameResult` stands for
`identify_name(platform_name)` and `env.identifiedPlatform` for
`PlatformIdentifier(reads).identify()`.  An empty `platform_name` string is
falsy in the source, hence treated like `None`. -/
def determine_platform (env : Env) (platform_name : Option String) :
    Platform × List String :=
  match platform_name with
  | some name =>
    if name ≠ "" then
      let platform := env.identifyNameResult
      if platform = Platform.unidentifiable then
        (env.identifiedPlatform,
          ["\nThe platform name \x27" ++ name ++ "\x27 is unrecognized.",
           "Please see the help message for valid platform names.",
           "\nAttempting to identify the sequencing platform from the reads."])
      else
        (platform, ["\nThe platform name \x27" ++ name ++ "\x27 was recognized."])
    else
      (env.identifiedPlatform,
        ["\nAttempting to identify the sequencing platform from the reads."])
  | none =>
    (env.identifiedPlatform,
      ["\nAttempting to identify the sequencing platform from the reads."])

/-- Observable actions of one run of `assemble`: stage executions and the
filesystem actions of the terminal stages.  `invokeAssembler`,
`measureQuality` and `mlEvaluate` carry the pass index (1 = fast assembly,
2 = expert assembly). -/
inductive Event where
  | mkdirOutputDirectory
  | validateFastq (valid : Bool)
  | determinePlatformStage
  | filterReads
  | estimateSpecies
  | deriveFastStrategy
  | invokeAssembler (pass : Nat)
  | estimateContamination
  | measureQuality (pass : Nat)
  | mlEvaluate (pass : Nat)
  | deriveExpertStrategy
  | heuristicEvaluate
  | compareAssemblies
  | writeCsv
  | writeJson
  | renameContigs
  | runCleanup
deriving DecidableEq, Repr

/-- The observations of one run of `assemble`: stage/filesystem events,
printed lines, and the returned value. -/
structure RunOutput where
  events : List Event
  printed : List String
  result : Option AssemblySummary

/-- `os.path.join(a, b)` for a relative `b`. -/
def joinPath (a b : String) : String := a ++ "/" ++ b

/-- The orchestrator `assemble(reads, output_directory, force, ...)`,
embedded over the collaborator results `env`.  Each stage appends its events
and printed lines in source order; each of the four gates returns early
(result `none`) when its boolean is false and `force` is false. -/
def assemble (env : Env) (output_directory : String) (force : Bool)
    (platform_name : Option String) : RunOutput :=
  let events := [Event.mkdirOutputDirectory]
  let printed : List String := []
  let valid_fastq := env.valid_fastq
  let events := events ++ [Event.validateFastq valid_fastq]
  let printed := printed ++ report_valid_fastq valid_fastq
  if !valid_fastq && !force then ⟨events, printed, none⟩ else
  let platformPair := determine_platform env platform_name
  let platform := platformPair.1
  let events := events ++ [Event.determinePlatformStage]
  let printed := printed ++ platformPair.2 ++ report_platform platform
  let events := events ++ [Event.filterReads]
  let events := events ++ [Event.estimateSpecies]
  let printed := printed ++ report_species env.speciesTop env.speciesRest
  let fast_strategy := env.fastStrategy
  let events := events ++ [Event.deriveFastStrategy]
  let printed := printed ++ report_strategy fast_strategy
  if !fast_strategy.proceed && !force then ⟨events, printed, none⟩ else
  let events := events ++ [Event.invokeAssembler 1]
  let printed := printed ++ [fast_strategy.assembler.assembleOutput]
  let evaluation := env.contaminationEvaluation
  let events := events ++ [Event.estimateContamination]
  let printed := printed ++ report_contamination evaluation
  if !evaluation.success && !force then ⟨events, printed, none⟩ else
  let events := events ++ [Event.measureQuality 1]
  let events := events ++ [Event.mlEvaluate 1]
  let printed := printed ++ [env.mlFastReport]
  let expert_strategy := env.expertStrategy
  let events := events ++ [Event.deriveExpertStrategy]
  let printed := printed ++ report_strategy expert_strategy
  if !expert_strategy.proceed && !force then ⟨events, printed, none⟩ else
  let printed := printed ++ ["Performing expert assembly."]
  let events := events ++ [Event.invokeAssembler 2]
  let printed := printed ++ [expert_strategy.assembler.assembleOutput]
  let events := events ++ [Event.measureQuality 2]
  let events := events ++ [Event.mlEvaluate 2]
  let printed := printed ++ [env.mlExpertReport]
  let events := events ++ [Event.heuristicEvaluate]
  let printed := printed ++ [env.heuristicReport]
  let events := events ++ [Event.compareAssemblies]
  let printed := printed ++ [env.comparisonReport]
  let events := events ++ [Event.writeCsv, Event.writeJson]
  let contigs_new_filename := joinPath output_directory "contigs.fasta"
  let events := events ++ [Event.renameContigs]
  let events := events ++ [Event.runCleanup]
  let printed := printed ++ ["Complete.\n"]
  ⟨events, printed,
    some ⟨env.speciesTop, env.expertAssemblyQuality, contigs_new_filename⟩⟩

/-- An abstract filesystem: which paths are directories and which are
regular files. -/
structure FileSystem where
  isdir : String → Bool
  isfile : String → Bool

/-- `os.remove(p)`: delete the regular file at `p`. -/
def FileSystem.removeFile (fs : FileSystem) (p : String) : FileSystem :=
  { fs with isfile := fun q => if q = p then false else fs.isfile q }

/-- `shutil.rmtree(p)`: delete the directory at `p` and everything below
it. -/
def FileSystem.rmtree (fs : FileSystem) (p : String) : FileSystem :=
  { isdir := fun q => if q = p || (p ++ "/").isPrefixOf q then false else fs.isdir q,
    isfile := fun q => if (p ++ "/").isPrefixOf q then false else fs.isfile q }

/-- One existence-guarded directory deletion of `cleanup`
(`if os.path.isdir(p): rmtree(p)`); also records the path it deleted. -/
def deleteDirIfPresent (fs : FileSystem) (p : String) : FileSystem × List String :=
  if fs.isdir p then (fs.rmtree p, [p]) else (fs, [])

/-- One existence-guarded file deletion of `cleanup`
(`if os.path.isfile(p): os.remove(p)`); also records the path it deleted. -/
def deleteFileIfPresent (fs : FileSystem) (p : String) : FileSystem × List String :=
  if fs.isfile p then (fs.removeFile p, [p]) else (fs, [])

/-- The filenames `cleanup` looks up on its collaborator classes
(`ContaminationHandler.FASTA_DIRECTORY`, `ReadFilterer.LOGFILE_FILENAME`,
and so on); their concrete values are defined outside the source module, so
`cleanup` is parameterised over them. -/
structure CleanupPaths where
  fastaDirectory : String
  logfileFilename : String
  fwdFilteredFilename : String
  revFilteredFilename : String
  speciesOutputFilename : String
  measurerOutputFilename : String
  measurerErrorFilename : String
  skesaDirectoryName : String
  spadesDirectoryName : String

/-- `cleanup(output_directory)`: the nine existence-guarded deletions in
source order, threading the filesystem through; returns the resulting
filesystem and the list of paths actually deleted. -/
def cleanup (paths : CleanupPaths) (output_directory : String)
    (fs : FileSystem) : FileSystem × List String :=
  let s1 := deleteDirIfPresent fs (joinPath output_directory paths.fastaDirectory)
  let s2 := deleteFileIfPresent s1.1 (joinPath output_directory paths.logfileFilename)
  let s3 := deleteFileIfPresent s2.1 (joinPath output_directory paths.fwdFilteredFilename)
  let s4 := deleteFileIfPresent s3.1 (joinPath output_directory paths.revFilteredFilename)
  let s5 := deleteFileIfPresent s4.1 (joinPath output_directory paths.speciesOutputFilename)
  let s6 := deleteFileIfPresent s5.1 (joinPath output_directory paths.measurerOutputFilename)
  let s7 := deleteFileIfPresent s6.1 (joinPath output_directory paths.measurerErrorFilename)
  let s8 := deleteDirIfPresent s7.1 (joinPath output_directory paths.skesaDirectoryName)
  let s9 := deleteDirIfPresent s8.1 (joinPath output_directory paths.spadesDirectoryName)
  (s9.1, s1.2 ++ s2.2 ++ s3.2 ++ s4.2 ++ s5.2 ++ s6.2 ++ s7.2 ++ s8.2 ++ s9.2)

/-- Characterisation of the event trace of `assemble`: one block per gate,
cut off at the first failing gate when `force` is false. -/
theorem assemble_events_eq (env : Env) (od : String) (force : Bool)
    (pn : Option String) :
    (assemble env od force pn).events =
      [Event.mkdirOutputDirectory, Event.validateFastq env.valid_fastq]
      ++ (if !env.valid_fastq && !force then [] else
        [Event.determinePlatformStage, Event.filterReads, Event.estimateSpecies,
         Event.deriveFastStrategy]
        ++ (if !env.fastStrategy.proceed && !force then [] else
          [Event.invokeAssembler 1, Event.estimateContamination]
          ++ (if !env.contaminationEvaluation.success && !force then [] else
            [Event.measureQuality 1, Event.mlEvaluate 1, Event.deriveExpertStrategy]
            ++ (if !env.expertStrategy.proceed && !force then [] else
              [Event.invokeAssembler 2, Event.measureQuality 2, Event.mlEvaluate 2,
               Event.heuristicEvaluate, Event.compareAssemblies, Event.writeCsv,
               Event.writeJson, Event.renameContigs, Event.runCleanup])))) := by
  simp only [assemble]
  split_ifs <;> simp

/-- Characterisation of the printed lines of `assemble`. -/
theorem assemble_printed_eq (env : Env) (od : String) (force : Bool)
    (pn : Option String) :
    (assemble env od force pn).printed =
      report_valid_fastq env.valid_fastq
      ++ (if !env.valid_fastq && !force then [] else
        (determine_platform env pn).2
        ++ report_platform (determine_platform env pn).1
        ++ report_species env.speciesTop env.speciesRest
        ++ report_strategy env.fastStrategy
        ++ (if !env.fastStrategy.proceed && !force then [] else
          [env.fastStrategy.assembler.assembleOutput]
          ++ report_contamination env.contaminationEvaluation
          ++ (if !env.contaminationEvaluation.success && !force then [] else
            [env.mlFastReport]
            ++ report_strategy env.expertStrategy
            ++ (if !env.expertStrategy.proceed && !force then [] else
              ["Performing expert assembly.",
               env.expertStrategy.assembler.assembleOutput,
               env.mlExpertReport, env.heuristicReport, env.comparisonReport,
               "Complete.\n"])))) := by
  simp only [assemble]
  split_ifs <;> simp

/-- Characterisation of the return value of `assemble`: `none` exactly when
some gate fails without `force`, otherwise the summary. -/
theorem assemble_result_eq (env : Env) (od : String) (force : Bool)
    (pn : Option String) :
    (assemble env od force pn).result =
      if (!env.valid_fastq && !force) || (!env.fastStrategy.proceed && !force)
          || (!env.contaminationEvaluation.success && !force)
          || (!env.expertStrategy.proceed && !force) then none
      else some ⟨env.speciesTop, env.expertAssemblyQuality,
        joinPath od "contigs.fasta"⟩ := by
  simp only [assemble]
  cases hv : env.valid_fastq <;> cases hf : env.fastStrategy.proceed <;>
    cases hc : env.contaminationEvaluation.success <;>
    cases he : env.expertStrategy.proceed <;> cases force <;>
    simp [assemble, hv, hf, hc, he]

theorem dDIP_isdir_self (fs : FileSystem) (p : String) :
    (deleteDirIfPresent fs p).1.isdir p = false := by
  unfold deleteDirIfPresent
  split
  · simp [FileSystem.rmtree]
  · simp_all

theorem dDIP_isdir_mono (fs : FileSystem) (p q : String)
    (h : fs.isdir q = false) : (deleteDirIfPresent fs p).1.isdir q = false := by
  unfold deleteDirIfPresent
  split
  · simp [FileSystem.rmtree, h]
  · exact h

theorem dDIP_isfile_mono (fs : FileSystem) (p q : String)
    (h : fs.isfile q = false) : (deleteDirIfPresent fs p).1.isfile q = false := by
  unfold deleteDirIfPresent
  split
  · simp [FileSystem.rmtree, h]
  · exact h

theorem dFIP_isfile_self (fs : FileSystem) (p : String) :
    (deleteFileIfPresent fs p).1.isfile p = false := by
  unfold deleteFileIfPresent
  split
  · simp [FileSystem.removeFile]
  · simp_all

theorem dFIP_isfile_mono (fs : FileSystem) (p q : String)
    (h : fs.isfile q = false) : (deleteFileIfPresent fs p).1.isfile q = false := by
  unfold deleteFileIfPresent
  split
  · simp [FileSystem.removeFile, h]
  · exact h

theorem dFIP_isdir_eq (fs : FileSystem) (p : String) :
    (deleteFileIfPresent fs p).1.isdir = fs.isdir := by
  unfold deleteFileIfPresent
  split <;> rfl

theorem dDIP_of_absent (fs : FileSystem) (p : String)
    (h : fs.isdir p = false) : deleteDirIfPresent fs p = (fs, []) := by
  simp [deleteDirIfPresent, h]

theorem dFIP_of_absent (fs : FileSystem) (p : String)
    (h : fs.isfile p = false) : deleteFileIfPresent fs p = (fs, []) := by
  simp [deleteFileIfPresent, h]

/-- If none of the nine paths that `cleanup` checks exists, `cleanup`
deletes nothing and leaves the filesystem unchanged. -/
theorem cleanup_of_all_absent (paths : CleanupPaths) (od : String)
    (g : FileSystem)
    (h1 : g.isdir (joinPath od paths.fastaDirectory) = false)
    (h2 : g.isfile (joinPath od paths.logfileFilename) = false)
    (h3 : g.isfile (joinPath od paths.fwdFilteredFilename) = false)
    (h4 : g.isfile (joinPath od paths.revFilteredFilename) = false)
    (h5 : g.isfile (joinPath od paths.speciesOutputFilename) = false)
    (h6 : g.isfile (joinPath od paths.measurerOutputFilename) = false)
    (h7 : g.isfile (joinPath od paths.measurerErrorFilename) = false)
    (h8 : g.isdir (joinPath od paths.skesaDirectoryName) = false)
    (h9 : g.isdir (joinPath od paths.spadesDirectoryName) = false) :
    cleanup paths od g = (g, []) := by
  simp [cleanup, dDIP_of_absent, dFIP_of_absent,
    h1, h2, h3, h4, h5, h6, h7, h8, h9]

/-- After `cleanup`, none of the nine paths it checks exists: the guarded
deletion of each path removes it if present, and no later deletion
recreates anything. -/
theorem cleanup_removes_all (paths : CleanupPaths) (od : String)
    (fs : FileSystem) :
    let g := (cleanup paths od fs).1
    g.isdir (joinPath od paths.fastaDirectory) = false
    ∧ g.isfile (joinPath od paths.logfileFilename) = false
    ∧ g.isfile (joinPath od paths.fwdFilteredFilename) = false
    ∧ g.isfile (joinPath od paths.revFilteredFilename) = false
    ∧ g.isfile (joinPath od paths.speciesOutputFilename) = false
    ∧ g.isfile (joinPath od paths.measurerOutputFilename) = false
    ∧ g.isfile (joinPath od paths.measurerErrorFilename) = false
    ∧ g.isdir (joinPath od paths.skesaDirectoryName) = false
    ∧ g.isdir (joinPath od paths.spadesDirectoryName) = false := by
  refine ⟨?_, ?_, ?_, ?_, ?_, ?_, ?_, ?_, ?_⟩ <;> simp only [cleanup]
  · apply dDIP_isdir_mono
    apply dDIP_isdir_mono
    simp only [dFIP_isdir_eq]
    exact dDIP_isdir_self _ _
  · apply dDIP_isfile_mono
    apply dDIP_isfile_mono
    apply dFIP_isfile_mono
    apply dFIP_isfile_mono
    apply dFIP_isfile_mono
    apply dFIP_isfile_mono
    apply dFIP_isfile_mono
    exact dFIP_isfile_self _ _
  · apply dDIP_isfile_mono
    apply dDIP_isfile_mono
    apply dFIP_isfile_mono
    apply dFIP_isfile_mono
    apply dFIP_isfile_mono
    apply dFIP_isfile_mono
    exact dFIP_isfile_self _ _
  · apply dDIP_isfile_mono
    apply dDIP_isfile_mono
    apply dFIP_isfile_mono
    apply dFIP_isfile_mono
    apply dFIP_isfile_mono
    exact dFIP_isfile_self _ _
  · apply dDIP_isfile_mono
    apply dDIP_isfile_mono
    apply dFIP_isfile_mono
    apply dFIP_isfile_mono
    exact dFIP_isfile_self _ _
  · apply dDIP_isfile_mono
    apply dDIP_isfile_mono
    apply dFIP_isfile_mono
    exact dFIP_isfile_self _ _
  · apply dDIP_isfile_mono
    apply dDIP_isfile_mono
    exact dFIP_isfile_self _ _
  · apply dDIP_isdir_mono
    exact dDIP_isdir_self _ _
  · exact dDIP_isdir_self _ _

/-- A concrete fast assembler for instantiating theorems. -/
def sampleAssemblerFast : Assembler :=
  ⟨"skesa", "fast assembler output", "output/skesa/contigs.fasta"⟩

/-- A concrete expert assembler for instantiating theorems. -/
def sampleAssemblerExpert : Assembler :=
  ⟨"spades", "expert assembler output", "output/spades/contigs.fasta"⟩

/-- A concrete collaborator environment in which every gate passes. -/
def sampleEnv : Env where
  valid_fastq := true
  identifyNameResult := Platform.unidentifiable
  identifiedPlatform := Platform.identified "Illumina"
  speciesTop := ⟨"Listeria monocytogenes"⟩
  speciesRest := []
  fastStrategy := ⟨"fast strategy report", true, sampleAssemblerFast⟩
  contaminationEvaluation := ⟨"contamination evaluation report", true⟩
  fastAssemblyQuality := ⟨12, 50000, 2900000⟩
  mlFastReport := "machine learning evaluation of the fast assembly"
  expertStrategy := ⟨"expert strategy report", true, sampleAssemblerExpert⟩
  expertAssemblyQuality := ⟨10, 61000, 2950000⟩
  mlExpertReport := "machine learning evaluation of the expert assembly"
  heuristicReport := "heuristic evaluation report"
  comparisonReport := "assembly comparison report"

/-- C1: for every input, if the force flag is true, the pipeline bypasses
all gate checks, reaches finalization (the rename of the expert contigs to
the canonical `output_directory/contigs.fasta`), writes the CSV and JSON
summaries, and returns an `AssemblySummary` carrying the species, the
expert assembly quality metrics and the canonical contigs path. -/
theorem assemble_force_always_completes (env : Env) (od : String)
    (pn : Option String) :
    (assemble env od true pn).result
        = some ⟨env.speciesTop, env.expertAssemblyQuality,
            joinPath od "contigs.fasta"⟩
      ∧ Event.renameContigs ∈ (assemble env od true pn).events
      ∧ Event.writeCsv ∈ (assemble env od true pn).events
      ∧ Event.writeJson ∈ (assemble env od true pn).events
      ∧ Event.runCleanup ∈ (assemble env od true pn).events := by
  refine ⟨?_, ?_, ?_, ?_, ?_⟩ <;>
    simp [assemble_result_eq, assemble_events_eq]

/-- C2: for every input whose reads fail FASTQ validation, if force is
false then `assemble` returns no value immediately after the validation
report; no later stage runs and no contigs, CSV or JSON output is produced;
the only printed report is the not-in-FASTQ-format message. -/
theorem assemble_invalid_fastq_halts (env : Env) (od : String)
    (pn : Option String) (h : env.valid_fastq = false) :
    (assemble env od false pn).result = none
      ∧ (assemble env od false pn).printed
          = ["One or both of the reads are not in FASTQ format."]
      ∧ (assemble env od false pn).events
          = [Event.mkdirOutputDirectory, Event.validateFastq false]
      ∧ Event.writeCsv ∉ (assemble env od false pn).events
      ∧ Event.writeJson ∉ (assemble env od false pn).events
      ∧ Event.renameContigs ∉ (assemble env od false pn).events := by
  refine ⟨?_, ?_, ?_, ?_, ?_, ?_⟩ <;>
    simp [assemble_result_eq, assemble_printed_eq, assemble_events_eq,
      report_valid_fastq, h]

/-- Witness for C2 at a concrete environment with invalid reads. -/
theorem assemble_invalid_fastq_halts_witness :
    ({ sampleEnv with valid_fastq := false } : Env).valid_fastq = false
      ∧ ((assemble { sampleEnv with valid_fastq := false } "output" false none).result = none
      ∧ (assemble { sampleEnv with valid_fastq := false } "output" false none).printed
          = ["One or both of the reads are not in FASTQ format."]
      ∧ (assemble { sampleEnv with valid_fastq := false } "output" false none).events
          = [Event.mkdirOutputDirectory, Event.validateFastq false]
      ∧ Event.writeCsv ∉ (assemble { sampleEnv with valid_fastq := false } "output" false none).events
      ∧ Event.writeJson ∉ (assemble { sampleEnv with valid_fastq := false } "output" false none).events
      ∧ Event.renameContigs ∉ (assemble { sampleEnv with valid_fastq := false } "output" false none).events) :=
  ⟨rfl, assemble_invalid_fastq_halts { sampleEnv with valid_fastq := false } "output" none rfl⟩

/-- C3: if a derived strategy (fast at stage 6 or expert at stage 11) has
`proceed = false` and force is false, `assemble` halts immediately after
reporting that strategy (the strategy derivation is the last event, the
unable-to-proceed line the last printed line), and the corresponding
assembler is never invoked. -/
theorem assemble_strategy_rejection_halts (env : Env) (od : String)
    (pn : Option String) (hv : env.valid_fastq = true) :
    (env.fastStrategy.proceed = false →
      (assemble env od false pn).result = none
        ∧ (∀ p, Event.invokeAssembler p ∉ (assemble env od false pn).events)
        ∧ (assemble env od false pn).events.getLast?
            = some Event.deriveFastStrategy
        ∧ (assemble env od false pn).printed.getLast?
            = some "The assembly was unable to proceed.\n")
    ∧ (env.fastStrategy.proceed = true →
       env.contaminationEvaluation.success = true →
       env.expertStrategy.proceed = false →
      (assemble env od false pn).result = none
        ∧ Event.invokeAssembler 2 ∉ (assemble env od false pn).events
        ∧ (assemble env od false pn).events.getLast?
            = some Event.deriveExpertStrategy
        ∧ (assemble env od false pn).printed.getLast?
            = some "The assembly was unable to proceed.\n") := by
  constructor
  · intro hf
    refine ⟨?_, ?_, ?_, ?_⟩ <;>
      simp [assemble_result_eq, assemble_events_eq, assemble_printed_eq,
        report_strategy, hv, hf, List.getLast?_append_cons]
  · intro hf hc he
    refine ⟨?_, ?_, ?_, ?_⟩ <;>
      simp [assemble_result_eq, assemble_events_eq, assemble_printed_eq,
        report_strategy, report_contamination, hv, hf, hc, he,
        List.getLast?_append_cons]

/-- Witness for C3 at concrete environments: the fast strategy rejected in
one, the expert strategy rejected in the other. -/
theorem assemble_strategy_rejection_halts_witness :
    (sampleEnv : Env).valid_fastq = true
      ∧ (({ sampleEnv with
            fastStrategy := ⟨"fast strategy report", false, sampleAssemblerFast⟩ } : Env).fastStrategy.proceed = false
          → True)
      ∧ ((assemble { sampleEnv with
            fastStrategy := ⟨"fast strategy report", false, sampleAssemblerFast⟩ }
            "output" false none).result = none)
      ∧ ((assemble { sampleEnv with
            expertStrategy := ⟨"expert strategy report", false, sampleAssemblerExpert⟩ }
            "output" false none).result = none
          ∧ Event.invokeAssembler 2 ∉ (assemble { sampleEnv with
              expertStrategy := ⟨"expert strategy report", false, sampleAssemblerExpert⟩ }
              "output" false none).events) := by
  refine ⟨rfl, fun _ => trivial, ?_, ?_, ?_⟩
  · exact ((assemble_strategy_rejection_halts { sampleEnv with
      fastStrategy := ⟨"fast strategy report", false, sampleAssemblerFast⟩ }
      "output" none rfl).1 rfl).1
  · exact ((assemble_strategy_rejection_halts { sampleEnv with
      expertStrategy := ⟨"expert strategy report", false, sampleAssemblerExpert⟩ }
      "output" none rfl).2 rfl rfl rfl).1
  · exact ((assemble_strategy_rejection_halts { sampleEnv with
      expertStrategy := ⟨"expert strategy report", false, sampleAssemblerExpert⟩ }
      "output" none rfl).2 rfl rfl rfl).2.1

/-- C4: if the contamination evaluation fails and force is false, `assemble`
halts immediately after reporting the evaluation and no later stage runs. -/
theorem assemble_contamination_failure_halts (env : Env) (od : String)
    (pn : Option String) (hv : env.valid_fastq = true)
    (hf : env.fastStrategy.proceed = true)
    (hc : env.contaminationEvaluation.success = false) :
    (assemble env od false pn).result = none
      ∧ (assemble env od false pn).events.getLast?
          = some Event.estimateContamination
      ∧ (assemble env od false pn).printed.getLast?
          = some "The assembly was unable to proceed.\n"
      ∧ Event.measureQuality 1 ∉ (assemble env od false pn).events
      ∧ Event.mlEvaluate 1 ∉ (assemble env od false pn).events
      ∧ Event.deriveExpertStrategy ∉ (assemble env od false pn).events
      ∧ Event.invokeAssembler 2 ∉ (assemble env od false pn).events
      ∧ Event.writeCsv ∉ (assemble env od false pn).events
      ∧ Event.writeJson ∉ (assemble env od false pn).events
      ∧ Event.renameContigs ∉ (assemble env od false pn).events
      ∧ Event.runCleanup ∉ (assemble env od false pn).events := by
  refine ⟨?_, ?_, ?_, ?_, ?_, ?_, ?_, ?_, ?_, ?_, ?_⟩ <;>
    simp [assemble_result_eq, assemble_events_eq, assemble_printed_eq,
      report_contamination, hv, hf, hc, List.getLast?_append_cons]

/-- Witness for C4 at a concrete environment with failed contamination
evaluation. -/
theorem assemble_contamination_failure_halts_witness :
    ({ sampleEnv with contaminationEvaluation := ⟨"contaminated", false⟩ } : Env).valid_fastq = true
      ∧ ((assemble { sampleEnv with contaminationEvaluation := ⟨"contaminated", false⟩ }
            "output" false none).result = none
        ∧ Event.deriveExpertStrategy ∉ (assemble { sampleEnv with
            contaminationEvaluation := ⟨"contaminated", false⟩ } "output" false none).events
        ∧ Event.runCleanup ∉ (assemble { sampleEnv with
            contaminationEvaluation := ⟨"contaminated", false⟩ } "output" false none).events) := by
  have h := assemble_contamination_failure_halts
    { sampleEnv with contaminationEvaluation := ⟨"contaminated", false⟩ }
    "output" none rfl rfl rfl
  exact ⟨rfl, h.1, h.2.2.2.2.2.1, h.2.2.2.2.2.2.2.2.2.2⟩

/-- C5: in every run, the contamination evaluation happens only after the
fast assembly execution, and the expert strategy derivation only after the
fast assembly quality measurement. -/
theorem assemble_stage_ordering (env : Env) (od : String) (force : Bool)
    (pn : Option String) :
    (Event.estimateContamination ∈ (assemble env od force pn).events →
      Event.invokeAssembler 1 ∈ (assemble env od force pn).events
        ∧ (assemble env od force pn).events.indexOf (Event.invokeAssembler 1)
            < (assemble env od force pn).events.indexOf
                Event.estimateContamination)
    ∧ (Event.deriveExpertStrategy ∈ (assemble env od force pn).events →
      Event.measureQuality 1 ∈ (assemble env od force pn).events
        ∧ (assemble env od force pn).events.indexOf (Event.measureQuality 1)
            < (assemble env od force pn).events.indexOf
                Event.deriveExpertStrategy) := by
  cases hv : env.valid_fastq <;> cases hf : env.fastStrategy.proceed <;>
    cases hc : env.contaminationEvaluation.success <;>
    cases he : env.expertStrategy.proceed <;> cases force <;>
    simp [assemble_events_eq, hv, hf, hc, he]

/-- Witness for C5: in a completed run the ordering facts hold. -/
theorem assemble_stage_ordering_witness :
    Event.estimateContamination ∈ (assemble sampleEnv "output" true none).events
      ∧ (Event.invokeAssembler 1 ∈ (assemble sampleEnv "output" true none).events
        ∧ (assemble sampleEnv "output" true none).events.indexOf
              (Event.invokeAssembler 1)
            < (assemble sampleEnv "output" true none).events.indexOf
                Event.estimateContamination) :=
  ⟨by decide, (assemble_stage_ordering sampleEnv "output" true none).1 (by decide)⟩

/-- C6: `cleanup` is idempotent: a second call on the directory left by a
first call performs no deletion and leaves the filesystem unchanged. -/
theorem cleanup_idempotent (paths : CleanupPaths) (od : String)
    (fs : FileSystem) :
    cleanup paths od (cleanup paths od fs).1 = ((cleanup paths od fs).1, []) := by
  obtain ⟨h1, h2, h3, h4, h5, h6, h7, h8, h9⟩ := cleanup_removes_all paths od fs
  exact cleanup_of_all_absent paths od _ h1 h2 h3 h4 h5 h6 h7 h8 h9

/-- C7: `cleanup` runs only after finalization (the contigs rename), and on
every early halt neither cleanup nor finalization nor the CSV and JSON
writes happen. -/
theorem assemble_cleanup_only_after_finalization (env : Env) (od : String)
    (force : Bool) (pn : Option String) :
    ((assemble env od force pn).result = none →
      Event.runCleanup ∉ (assemble env od force pn).events
        ∧ Event.renameContigs ∉ (assemble env od force pn).events
        ∧ Event.writeCsv ∉ (assemble env od force pn).events
        ∧ Event.writeJson ∉ (assemble env od force pn).events)
    ∧ (Event.runCleanup ∈ (assemble env od force pn).events →
      Event.renameContigs ∈ (assemble env od force pn).events
        ∧ (assemble env od force pn).events.indexOf Event.renameContigs
            < (assemble env od force pn).events.indexOf Event.runCleanup) := by
  cases hv : env.valid_fastq <;> cases hf : env.fastStrategy.proceed <;>
    cases hc : env.contaminationEvaluation.success <;>
    cases he : env.expertStrategy.proceed <;> cases force <;>
    simp [assemble_events_eq, assemble_result_eq, hv, hf, hc, he]

/-- Witness for C7: a halted run performs no cleanup, no rename and no
report writes; a completed run performs cleanup after the rename. -/
theorem assemble_cleanup_only_after_finalization_witness :
    ((assemble { sampleEnv with valid_fastq := false } "output" false none).result = none
      ∧ (Event.runCleanup
            ∉ (assemble { sampleEnv with valid_fastq := false } "output" false none).events
        ∧ Event.renameContigs
            ∉ (assemble { sampleEnv with valid_fastq := false } "output" false none).events
        ∧ Event.writeCsv
            ∉ (assemble { sampleEnv with valid_fastq := false } "output" false none).events
        ∧ Event.writeJson
            ∉ (assemble { sampleEnv with valid_fastq := false } "output" false none).events))
      ∧ (Event.runCleanup ∈ (assemble sampleEnv "output" true none).events
        ∧ (Event.renameContigs ∈ (assemble sampleEnv "output" true none).events
          ∧ (assemble sampleEnv "output" true none).events.indexOf Event.renameContigs
              < (assemble sampleEnv "output" true none).events.indexOf Event.runCleanup)) :=
  ⟨⟨by decide,
    (assemble_cleanup_only_after_finalization
      { sampleEnv with valid_fastq := false } "output" false none).1 (by decide)⟩,
   ⟨by decide,
    (assemble_cleanup_only_after_finalization sampleEnv "output" true none).2
      (by decide)⟩⟩

/-- C8 counterexample: the validation gate is a gated stage, yet its
failure report is only the not-in-FASTQ-format line; no printed line of it
contains the words "unable to proceed". -/
theorem report_valid_fastq_lacks_proceed_message :
    report_valid_fastq false
        = ["One or both of the reads are not in FASTQ format."]
      ∧ ∀ s ∈ report_valid_fastq false,
          ¬ ("unable to proceed".toList <:+: s.toList) := by decide

/-- C8 amended: on a failed strategy gate or a failed contamination gate
the report contains the line "The assembly was unable to proceed."; on a
failed validation gate the report is only the not-in-FASTQ-format line. -/
theorem gate_failure_reports_amended (strategy : AssemblyStrategy)
    (evaluation : Evaluation) :
    (strategy.proceed = false →
      "The assembly was unable to proceed.\n" ∈ report_strategy strategy)
    ∧ (evaluation.success = false →
      "The assembly was unable to proceed.\n" ∈ report_contamination evaluation)
    ∧ report_valid_fastq false
        = ["One or both of the reads are not in FASTQ format."] := by
  refine ⟨fun h => ?_, fun h => ?_, by decide⟩ <;>
    simp [report_strategy, report_contamination, h]

/-- Witness for the amended C8 at a concrete rejected strategy and a
concrete failed evaluation. -/
theorem gate_failure_reports_amended_witness :
    (⟨"no viable plan", false, sampleAssemblerFast⟩ : AssemblyStrategy).proceed = false
      ∧ "The assembly was unable to proceed.\n"
          ∈ report_strategy ⟨"no viable plan", false, sampleAssemblerFast⟩
      ∧ (⟨"contaminated", false⟩ : Evaluation).success = false
      ∧ "The assembly was unable to proceed.\n"
          ∈ report_contamination ⟨"contaminated", false⟩ :=
  ⟨rfl,
   (gate_failure_reports_amended ⟨"no viable plan", false, sampleAssemblerFast⟩
     ⟨"contaminated", false⟩).1 rfl,
   rfl,
   (gate_failure_reports_amended ⟨"no viable plan", false, sampleAssemblerFast⟩
     ⟨"contaminated", false⟩).2.1 rfl⟩

/-- C9: the undetermined-species check reuses the loop variable, so with a
top candidate named "Unknown" and at least one additional candidate the
undetermined-species warning is not printed (it is printed for a singleton
list, matching the source comment "A species could not be determined"),
while the pipeline still proceeds to fast-strategy derivation. -/
theorem report_species_shadowing_bug :
    "\nWARNING: A species could not be determined with high confidence from the input data."
        ∉ report_species ⟨"Unknown"⟩ [⟨"Escherichia coli"⟩]
      ∧ "\nWARNING: A species could not be determined with high confidence from the input data."
          ∈ report_species ⟨"Unknown"⟩ []
      ∧ Event.deriveFastStrategy ∈ (assemble { sampleEnv with
          speciesTop := ⟨"Unknown"⟩,
          speciesRest := [⟨"Escherichia coli"⟩] } "output" false none).events := by
  decide

/-- The species headline differs from the additional-candidates warning,
whatever the species name: the first character already differs. -/
theorem species_line_ne_additional_warning (s : String) :
    ("SPECIES: " ++ s)
      ≠ "\nWARNING: Additional high-confidence species were found in the input data:\n" := by
  intro h
  have h2 : ("SPECIES: " ++ s).data.head? = some 'S' := by
    rw [String.data_append]; rfl
  rw [h] at h2
  exact absurd h2 (by decide)

/-- C10: `report_species` prints the additional-high-confidence-species
warning exactly when the list has more than one element, and then lists
precisely the candidates at positions 1 through 4 of the list (at most
four). -/
theorem report_species_additional_listing (top : Species)
    (rest : List Species) :
    ("\nWARNING: Additional high-confidence species were found in the input data:\n"
        ∈ report_species top rest ↔ rest ≠ [])
    ∧ (rest ≠ [] → ∃ tail, report_species top rest
        = ["SPECIES: " ++ top.name,
           "\nWARNING: Additional high-confidence species were found in the input data:\n"]
          ++ (rest.take 4).map (fun s => s.name) ++ tail)
    ∧ (rest.take 4).length ≤ 4 := by
  refine ⟨?_, ?_, ?_⟩
  · cases rest with
    | nil =>
      have hne := Ne.symm (species_line_ne_additional_warning top.name)
      have hu : ("\nWARNING: Additional high-confidence species were found in the input data:\n" : String)
          ≠ "\nWARNING: A species could not be determined with high confidence from the input data." := by
        decide
      have hempty : ("\nWARNING: Additional high-confidence species were found in the input data:\n" : String)
          ≠ "" := by decide
      by_cases hU : top.name = "Unknown" <;>
        simp [report_species, hU, hne, hu, hempty]
    | cons a as => simp [report_species]
  · intro h
    cases rest with
    | nil => exact absurd rfl h
    | cons a as =>
      refine ⟨(if (((a :: as).take 4).getLast?.getD top).name = "Unknown" then
          ["\nWARNING: A species could not be determined with high confidence from the input data."]
        else []) ++ [""], ?_⟩
      simp [report_species]
  · rw [List.length_take]
    exact Nat.min_le_left _ _

/-- Witness for C10 at a five-candidate tail: the warning appears and only
the first four additional candidates are listed. -/
theorem report_species_additional_listing_witness :
    ([⟨"A"⟩, ⟨"B"⟩, ⟨"C"⟩, ⟨"D"⟩, ⟨"E"⟩] : List Species) ≠ []
      ∧ ∃ tail, report_species ⟨"Bacillus"⟩ [⟨"A"⟩, ⟨"B"⟩, ⟨"C"⟩, ⟨"D"⟩, ⟨"E"⟩]
          = ["SPECIES: " ++ (⟨"Bacillus"⟩ : Species).name,
             "\nWARNING: Additional high-confidence species were found in the input data:\n"]
            ++ (([⟨"A"⟩, ⟨"B"⟩, ⟨"C"⟩, ⟨"D"⟩, ⟨"E"⟩] : List Species).take 4).map
                (fun s => s.name) ++ tail :=
  ⟨by decide,
   (report_species_additional_listing ⟨"Bacillus"⟩
     [⟨"A"⟩, ⟨"B"⟩, ⟨"C"⟩, ⟨"D"⟩, ⟨"E"⟩]).2.1 (by decide)⟩
